import Mathlib

/-!
# Verification of the worktree lifecycle controller and hook engine

A shallow embedding of the worktree CLI's core: branch-name validation and
directory naming (`src/utils/naming.ts`, `src/utils/validation.ts`), the
lifecycle controller (`src/lib/worktree.ts`: `create`, `remove`, `setup`),
default-branch resolution (`src/lib/git.ts`), and the hook security
classifier and runner (`src/lib/hooks.ts`).  Asynchronous TypeScript
functions become pure Lean functions over explicit backend/filesystem
states; thrown errors become `Except` values; regular expressions are
embedded via a small fuel-based matcher.
-/

namespace Worktree

/-! ## String helpers shared by the embedding -/

/-- Prefix test on character lists. -/
def isPrefList : List Char → List Char → Bool
  | [], _ => true
  | _ :: _, [] => false
  | a :: as, b :: bs => a = b && isPrefList as bs

/-- Does `pat` occur as a contiguous sublist of `s`? -/
def hasSubList (pat : List Char) : List Char → Bool
  | [] => isPrefList pat []
  | b :: bs => isPrefList pat (b :: bs) || hasSubList pat bs

/-- Substring containment, mirroring JavaScript `String.prototype.includes`. -/
def strContains (s pat : String) : Bool :=
  hasSubList pat.toList s.toList

/-- `String.prototype.startsWith`. -/
def jsStartsWith (s pat : String) : Bool :=
  isPrefList pat.toList s.toList

/-- `String.prototype.endsWith`. -/
def jsEndsWith (s pat : String) : Bool :=
  isPrefList pat.toList.reverse s.toList.reverse

/-- Lower-casing, mirroring JavaScript `toLowerCase` on ASCII input. -/
def strToLower (s : String) : String :=
  String.mk (s.toList.map Char.toLower)

/-- The JavaScript regular-expression class `\s` (whitespace). -/
def isSpaceJS (c : Char) : Bool :=
  c = ' ' || c = '\t' || c = '\n' || c = '\r' ||
  c = '\x0b' || c = '\x0c' || c.toNat = 0xa0 || c.toNat = 0x1680 ||
  (0x2000 ≤ c.toNat && c.toNat ≤ 0x200a) ||
  c.toNat = 0x2028 || c.toNat = 0x2029 || c.toNat = 0x202f ||
  c.toNat = 0x205f || c.toNat = 0x3000 || c.toNat = 0xfeff

/-- `String.prototype.trim` (JavaScript whitespace and line terminators). -/
def trimJS (s : String) : String :=
  String.mk (((s.toList.dropWhile isSpaceJS).reverse.dropWhile isSpaceJS).reverse)

/-! ## Errors (`src/utils/errors.ts`)

`UncommittedChangesError` and `UnmergedBranchError` extend `GitError`; all of
them extend `WorktreeError`.  Each constructor stores exactly the data the
TypeScript constructor receives; the rendered `message` and the `command`
field are recomputed by `errMessage` / `errCommand` below, mirroring the
template strings of the classes. -/

inductive WtError where
  | validation (msg : String)
  | fileSystem (msg : String)
  | git (msg : String) (command : String)
  | uncommittedChanges (identifier : String)
  | unmergedBranch (branch : String) (targetBranch : String)
  | generic (msg : String)
deriving DecidableEq, Repr

/-- The `message` property of the thrown error object. -/
def errMessage : WtError → String
  | .validation m => m
  | .fileSystem m => m
  | .git m _ => m
  | .uncommittedChanges identifier =>
      "Worktree '" ++ identifier ++
      "' has uncommitted changes. Commit or stash changes, or use --force to override."
  | .unmergedBranch branch targetBranch =>
      "Branch '" ++ branch ++ "' is not merged to '" ++ targetBranch ++
      "'. Removing it will make those commits harder to recover. Use --force to override."
  | .generic m => m

/-- The `command` property carried by the `GitError` family (empty for the
non-git errors, which have no such field). -/
def errCommand : WtError → String
  | .git _ c => c
  | .uncommittedChanges _ => "git status --porcelain --untracked-files=no"
  | .unmergedBranch _ _ => "git branch --merged"
  | _ => ""

/-- `error instanceof ValidationError || FileSystemError || GitError` in
`setup`'s catch block; the uncommitted/unmerged errors are `GitError`s. -/
def isRethrownAsIs : WtError → Bool
  | .generic _ => false
  | _ => true

/-! ## Naming (`src/utils/naming.ts`) -/

/-- Character-wise replacement performed by `branch.replace(/\//g, '-')`. -/
def slashDash (c : Char) : Char :=
  if c = '/' then '-' else c

/-- `branchToDirName`: convert a branch name to a directory name by
replacing slashes with dashes. -/
def branchToDirName (branch : String) : String :=
  String.mk (branch.toList.map slashDash)

/-! ## Branch-name validation (`src/utils/validation.ts`) -/

/-- The class `[\x00-\x1f\x7f\s]` (`BRANCH_CONTROL_AND_WHITESPACE`). -/
def branchCtlWs (c : Char) : Bool :=
  c.toNat ≤ 0x1f || c.toNat = 0x7f || isSpaceJS c

/-- The alternation `[\\^~:?*[]|\.\.|\/{2,}|@\{` (`BRANCH_GIT_FORBIDDEN`):
one of the listed characters, a `..`, two or more consecutive slashes, or
`@{`. -/
def branchGitForbidden (b : String) : Bool :=
  b.toList.any (fun c => c = '\\' || c = '^' || c = '~' || c = ':' ||
    c = '?' || c = '*' || c = '[') ||
  strContains b ".." || strContains b "//" || strContains b "@\x7b"

/-- The class `[;&|`$()<>]` (`BRANCH_SHELL_METACHAR`). -/
def branchShellMeta (c : Char) : Bool :=
  c = ';' || c = '&' || c = '|' || c = '`' || c = '$' ||
  c = '(' || c = ')' || c = '<' || c = '>'

/-- `isValidBranchName` from `src/utils/validation.ts`. -/
def isValidBranchName (branch : String) : Bool :=
  if branch = "" then false
  else if branch = "@" then false
  else if jsStartsWith branch "/" || jsStartsWith branch "." || jsStartsWith branch "-" then false
  else if jsEndsWith branch "/" || jsEndsWith branch "." || jsEndsWith branch ".lock" then false
  else if branch.toList.any branchCtlWs then false
  else if branchGitForbidden branch then false
  else if branch.toList.any branchShellMeta then false
  else true

/-! ## POSIX path helpers (`node:path`)

`create`/`remove` compute `join(dirname(gitRoot), dirName)` and `isSafePath`
compares a path with its normalisation.  `posixNormalize`/`dirnameP` model
`path.normalize`/`path.dirname` for POSIX; `joinPath` models `path.join`
for already-normal components (the repository only joins a normal project
root with a slash-free directory name). -/

/-- Split a character list on `/`, like `String.splitOn "/"`. -/
def splitSlashAux (acc : List Char) : List Char → List String
  | [] => [String.mk acc.reverse]
  | c :: rest =>
    if c = '/' then String.mk acc.reverse :: splitSlashAux [] rest
    else splitSlashAux (c :: acc) rest

/-- Path segments of a string. -/
def splitSlash (p : String) : List String := splitSlashAux [] p.toList

/-- Join segments with `/`, like `String.intercalate "/"`. -/
def joinSegs : List String → String
  | [] => ""
  | [s] => s
  | s :: rest => s ++ "/" ++ joinSegs rest

/-- One step of POSIX `normalize`'s segment processing. -/
def normFold (isAbs : Bool) (acc : List String) (seg : String) : List String :=
  if seg = "" || seg = "." then acc
  else if seg = ".." then
    match acc with
    | [] => if isAbs then [] else [".."]
    | a :: rest => if a = ".." then ".." :: acc else rest
  else seg :: acc

/-- `path.posix.normalize`. -/
def posixNormalize (p : String) : String :=
  if p = "" then "."
  else
    let isAbs := jsStartsWith p "/"
    let trail := jsEndsWith p "/"
    let stack := (splitSlash p).foldl (normFold isAbs) []
    let body := joinSegs stack.reverse
    if body = "" then
      (if isAbs then "/" else if trail then "./" else ".")
    else
      (if isAbs then "/" ++ body else body) ++ (if trail then "/" else "")

/-- `path.posix.dirname`. -/
def dirnameP (p : String) : String :=
  if p = "" then "."
  else
    let stripped := String.mk (p.toList.reverse.dropWhile (· = '/')).reverse
    if stripped = "" then "/"
    else
      let segs := stripped.toList
      if ¬ segs.contains '/' then "."
      else
        let pre := String.mk (segs.reverse.dropWhile (· ≠ '/')).reverse
        let pre2 := String.mk (pre.toList.reverse.dropWhile (· = '/')).reverse
        if pre2 = "" then "/" else pre2

/-- `path.join(a, b)` for normal components: concatenation with a slash. -/
def joinPath (a b : String) : String :=
  if a = "" then b else if b = "" then a else a ++ "/" ++ b

/-- `isSafePath` from `src/utils/validation.ts` (POSIX separators): reject
paths containing `..`, then require the path (with backslashes mapped to
the separator) to equal its normalisation. -/
def isSafePath (path : String) : Bool :=
  if path = "" then false
  else if strContains path ".." then false
  else
    let pathWithCorrectSep := String.mk (path.toList.map (fun c => if c = '\\' then '/' else c))
    pathWithCorrectSep = posixNormalize path

/-- The worktree directory computed identically by `create` (lines 67–70)
and `remove` (lines 299–302): `join(dirname(gitRoot), branchToDirName id)`. -/
def worktreeDirFor (gitRoot identifier : String) : String :=
  joinPath (dirnameP gitRoot) (branchToDirName identifier)

/-! ## Regular-expression engine

The hook classifier (`src/lib/hooks.ts`) is built from JavaScript regular
expressions.  `RE` is a regex syntax (characters via predicates, sequence,
alternation, Kleene star, word boundary `\b`, end anchor `$`) and `matchR`
a continuation-passing matcher over a character-list zipper; a fuel
argument bounds star unfoldings (each star re-entry consumes strictly
shorter input, so the generous fuel below never runs out on the pattern
sizes used here). -/

inductive RE where
  | eps
  | pred (p : Char → Bool)
  | seq (a b : RE)
  | alt (a b : RE)
  | star (a : RE)
  | wb
  | eos

/-- Size of a regex, used to compute a sufficient fuel bound. -/
def reSize : RE → Nat
  | .eps => 1
  | .pred _ => 1
  | .seq a b => reSize a + reSize b + 1
  | .alt a b => reSize a + reSize b + 1
  | .star a => reSize a + 1
  | .wb => 1
  | .eos => 1

/-- A word character for `\b`, per JavaScript: `[A-Za-z0-9_]`. -/
def isWordChar (c : Char) : Bool :=
  ('a' ≤ c && c ≤ 'z') || ('A' ≤ c && c ≤ 'Z') || ('0' ≤ c && c ≤ '9') || c = '_'

/-- `\b` holds between `prev` and the head of `s` when exactly one side is
a word character. -/
def atBoundary (prev : Option Char) (s : List Char) : Bool :=
  let pw := match prev with | some c => isWordChar c | none => false
  let nw := match s with | c :: _ => isWordChar c | [] => false
  pw != nw

/-- CPS matcher: `matchR fuel r prev s k` matches `r` against a prefix of
`s` (with `prev` the character before `s`) and calls `k` on the rest. -/
def matchR : Nat → RE → Option Char → List Char → (Option Char → List Char → Bool) → Bool
  | 0, _, _, _, _ => false
  | fuel + 1, r, prev, s, k =>
    match r with
    | .eps => k prev s
    | .pred p =>
      match s with
      | [] => false
      | c :: rest => p c && k (some c) rest
    | .seq a b => matchR fuel a prev s (fun p2 s2 => matchR fuel b p2 s2 k)
    | .alt a b => matchR fuel a prev s k || matchR fuel b prev s k
    | .star a =>
      k prev s ||
      matchR fuel a prev s (fun p2 s2 =>
        if s2.length < s.length then matchR fuel (.star a) p2 s2 k else false)
    | .wb => atBoundary prev s && k prev s
    | .eos => s.isEmpty && k prev s

/-- Fuel that is ample for the patterns and inputs of this development. -/
def reFuel (r : RE) (s : List Char) : Nat :=
  (reSize r + 2) * (s.length + 2)

/-- Search for a match of `r` starting at any position (unanchored test). -/
def searchAux (fuel : Nat) (r : RE) : Option Char → List Char → Bool
  | prev, [] => matchR fuel r prev [] (fun _ _ => true)
  | prev, c :: rest =>
    matchR fuel r prev (c :: rest) (fun _ _ => true) || searchAux fuel r (some c) rest

/-- A compiled pattern: the regex plus the `^` anchor and `i` flag. -/
structure Pattern where
  re : RE
  anchored : Bool
  ignoreCase : Bool

/-- `pattern.test(str)`: the `i` flag is modelled by lower-casing the input
(the patterns carrying it contain only lower-case literals). -/
def testP (pat : Pattern) (str : String) : Bool :=
  let s := if pat.ignoreCase then str.toList.map Char.toLower else str.toList
  if pat.anchored then matchR (reFuel pat.re s) pat.re none s (fun _ _ => true)
  else searchAux (reFuel pat.re s) pat.re none s

/-! Regex construction helpers. -/

/-- A literal character. -/
def rchar (c : Char) : RE := .pred (fun x => x = c)

/-- A literal string. -/
def rlit (s : String) : RE := s.toList.foldr (fun c acc => RE.seq (rchar c) acc) .eps

/-- `\s`. -/
def rsp : RE := .pred isSpaceJS

/-- `X+` as `X X*`. -/
def rplus (r : RE) : RE := .seq r (.star r)

/-- `X?`. -/
def ropt (r : RE) : RE := .alt r .eps

/-- `(w1|w2|...)` over literal words. -/
def ralts (ws : List String) : RE :=
  match ws with
  | [] => .eps
  | [w] => rlit w
  | w :: rest => .alt (rlit w) (ralts rest)

/-- Sequence of a list of regexes. -/
def rseq (rs : List RE) : RE := rs.foldr RE.seq .eps

/-! ## Hook security classifier (`src/lib/hooks.ts`) -/

inductive SecurityLevel where
  | safe
  | risky
  | blocked
deriving DecidableEq, Repr

structure SecurityValidationResult where
  level : SecurityLevel
  reason : Option String
  command : String
deriving DecidableEq, Repr

/-- `/\bcurl\s+[^|]*\|\s*(?:ba)?sh\b/i` (and the `wget` variant). -/
def pipeToShellRE (tool : String) : RE :=
  rseq [.wb, rlit tool, rplus rsp, .star (.pred (fun c => c ≠ '|')),
    rchar '|', .star rsp, ropt (rlit "ba"), rlit "sh", .wb]

/-- `BLOCKED_PATTERNS`: pattern plus reason, in source order. -/
def BLOCKED_PATTERNS : List (Pattern × String) :=
  [ (⟨pipeToShellRE "curl", false, true⟩,
      "Piping curl to shell is dangerous - could execute arbitrary remote code"),
    (⟨pipeToShellRE "wget", false, true⟩,
      "Piping wget to shell is dangerous - could execute arbitrary remote code"),
    (⟨rseq [.wb, rlit "sudo", .wb], false, false⟩,
      "sudo commands require elevated privileges and are blocked for security"),
    (⟨rseq [.wb, rlit "eval", rplus rsp], false, false⟩,
      "eval can execute arbitrary code and is blocked for security") ]

/-- `/\brm\s+(?:-[rf]+\s+)+/`, the recursive/forced-delete trigger. -/
def rmTestPattern : Pattern :=
  ⟨rseq [.wb, rlit "rm", rplus rsp,
    rplus (rseq [rchar '-', rplus (.pred (fun c => c = 'r' || c = 'f')), rplus rsp])],
   false, false⟩

/-- `SAFE_PATTERNS`, in source order (all anchored with `^`). -/
def SAFE_PATTERNS : List Pattern :=
  [ ⟨rseq [.star rsp, rlit "npm", rplus rsp,
      ralts ["install", "ci", "run", "test", "build", "start", "exec"], .wb], true, false⟩,
    ⟨rseq [.star rsp, rlit "yarn",
      ropt (.seq (rplus rsp) (ralts ["install", "add", "run", "test", "build", "start"])),
      .star rsp, .eos], true, false⟩,
    ⟨rseq [.star rsp, rlit "yarn", rplus rsp,
      ralts ["install", "add", "run", "test", "build", "start"], .wb], true, false⟩,
    ⟨rseq [.star rsp, rlit "pnpm", rplus rsp,
      ralts ["install", "add", "run", "test", "build", "start"], .wb], true, false⟩,
    ⟨rseq [.star rsp, rlit "bun", rplus rsp,
      ralts ["install", "add", "run", "test", "build", "start"], .wb], true, false⟩,
    ⟨rseq [.star rsp, rlit "docker", rplus rsp, rlit "compose", .wb], true, false⟩,
    ⟨rseq [.star rsp, rlit "docker-compose", .wb], true, false⟩,
    ⟨rseq [.star rsp, rlit "mkdir", rplus rsp, ropt (rchar '-'), ropt (rchar 'p'), rsp],
      true, false⟩,
    ⟨rseq [.star rsp, rlit "cp", rplus rsp], true, false⟩,
    ⟨rseq [.star rsp, rlit "mv", rplus rsp], true, false⟩,
    ⟨rseq [.star rsp, rlit "touch", rplus rsp], true, false⟩,
    ⟨rseq [.star rsp, rlit "echo", rplus rsp], true, false⟩,
    ⟨rseq [.star rsp, rlit "cat", rplus rsp], true, false⟩,
    ⟨rseq [.star rsp, rlit "ls", .wb], true, false⟩,
    ⟨rseq [.star rsp, rlit "pwd", .wb], true, false⟩,
    ⟨rseq [.star rsp, rlit "git", rplus rsp,
      ralts ["fetch", "pull", "checkout", "branch", "status", "log", "diff"], .wb], true, false⟩,
    ⟨rseq [.star rsp, rlit "make", .wb], true, false⟩,
    ⟨rseq [.star rsp, rlit "cmake", .wb], true, false⟩,
    ⟨rseq [.star rsp, rlit "cargo", rplus rsp, ralts ["build", "run", "test"], .wb], true, false⟩,
    ⟨rseq [.star rsp, rlit "go", rplus rsp, ralts ["build", "run", "test", "mod"], .wb], true, false⟩,
    ⟨rseq [.star rsp, rlit "python", rplus rsp, rlit "-m", rplus rsp,
      ralts ["pip", "venv"], .wb], true, false⟩,
    ⟨rseq [.star rsp, rlit "pip", rplus rsp, rlit "install", .wb], true, false⟩,
    ⟨rseq [.star rsp, rlit "composer", rplus rsp, rlit "install", .wb], true, false⟩,
    ⟨rseq [.star rsp, rlit "bundle", rplus rsp, rlit "install", .wb], true, false⟩ ]

/-- `SAFE_RM_PATHS`: directory names allowed as `rm -rf` targets. -/
def SAFE_RM_PATHS : List String :=
  ["node_modules", "dist", ".cache", "build", "coverage", ".next", ".turbo",
   "__pycache__", ".pytest_cache", "target", "out", ".parcel-cache", ".nuxt", ".output"]

/-! The capture group of `/\brm\s+(?:-[rf]+\s+)+(.+)/`: `rmCapture` computes
group 1 of the leftmost match by JavaScript's leftmost, greedy backtracking
semantics.  Shortening the `[rf]+` munch or the inner `\s+` munch can never
help (it would force a space where `-` is required, or an `r`/`f` where a
space is required), so only the flag-group count and the final `\s+` length
backtrack. -/

/-- Characters excluded by `.` in JavaScript (line terminators). -/
def isLineTermJS (c : Char) : Bool :=
  c = '\n' || c = '\r' || c.toNat = 0x2028 || c.toNat = 0x2029

/-- `(.+)` at the current position: succeeds on a nonempty run of
non-terminators and captures it greedily. -/
def captureDot (s : List Char) : Option (List Char) :=
  match s with
  | [] => none
  | c :: _ => if isLineTermJS c then none else some (s.takeWhile (fun x => ¬ isLineTermJS x))

/-- The remainders after one `-[rf]+\s+` flag group, in backtracking
preference order (longest `\s+` munch first, down to one space). -/
def flagGroupRems (s : List Char) : List (List Char) :=
  match s with
  | '-' :: t =>
    let rf := t.takeWhile (fun c => c = 'r' || c = 'f')
    if rf.isEmpty then []
    else
      let afterRf := t.drop rf.length
      let sp := afterRf.takeWhile isSpaceJS
      if sp.isEmpty then []
      else (List.range sp.length).map (fun i => afterRf.drop (sp.length - i))
  | _ => []

/-- First `some` in a list of options. -/
def firstSome {α : Type} : List (Option α) → Option α
  | [] => none
  | some a :: _ => some a
  | none :: rest => firstSome rest

/-- `(?:-[rf]+\s+)+(.+)` at the current position, greedy. -/
def rmGroupsThenTarget : Nat → List Char → Option (List Char)
  | 0, _ => none
  | fuel + 1, s =>
    firstSome ((flagGroupRems s).map (fun rem =>
      match rmGroupsThenTarget fuel rem with
      | some t => some t
      | none => captureDot rem))

/-- Attempt the whole pattern at the current position (just after a
position where `\b` holds): `rm`, then `\s+`, then flag groups and target. -/
def rmMatchAt (s : List Char) : Option (List Char) :=
  match s with
  | 'r' :: 'm' :: t =>
    let sp := t.takeWhile isSpaceJS
    if sp.isEmpty then none
    else rmGroupsThenTarget (t.length + 1) (t.drop sp.length)
  | _ => none

/-- Scan for the leftmost match, as `String.prototype.match` does. -/
def rmScan (prev : Option Char) : List Char → Option (List Char)
  | [] => none
  | c :: rest =>
    match (if atBoundary prev (c :: rest) then rmMatchAt (c :: rest) else none) with
    | some t => some t
    | none => rmScan (some c) rest

/-- Group 1 of `command.match(/\brm\s+(?:-[rf]+\s+)+(.+)/)`. -/
def rmCapture (command : String) : Option String :=
  (rmScan none command.toList).map String.mk

/-- `isRmRfSafe` from `src/lib/hooks.ts`. -/
def isRmRfSafe (command : String) : Bool :=
  match rmCapture command with
  | none => false
  | some raw =>
    let targetPath := trimJS raw
    SAFE_RM_PATHS.any (fun safePath =>
      let pathLower := strToLower targetPath
      let safePathLower := strToLower safePath
      pathLower = safePathLower ||
      jsEndsWith pathLower ("/" ++ safePathLower) ||
      jsEndsWith pathLower ("\\" ++ safePathLower))

/-- `validateHookCommand` from `src/lib/hooks.ts`. -/
def validateHookCommand (command : String) : SecurityValidationResult :=
  match BLOCKED_PATTERNS.find? (fun bp => testP bp.1 command) with
  | some bp => { level := .blocked, reason := some bp.2, command := command }
  | none =>
    if testP rmTestPattern command then
      if isRmRfSafe command then { level := .safe, reason := none, command := command }
      else
        { level := .blocked,
          reason := some "rm -rf is only allowed for safe paths like node_modules, dist, .cache",
          command := command }
    else if SAFE_PATTERNS.any (fun p => testP p command) then
      { level := .safe, reason := none, command := command }
    else
      { level := .risky, reason := some "Unknown command pattern - requires confirmation",
        command := command }

/-! ## Default-branch resolution (`src/lib/git.ts`, `getDefaultBranch`) -/

/-- The backend facts `getDefaultBranch` consults, in the order it
consults them.  `remoteHead = some b` models a successful
`git remote show origin` whose output matched `/HEAD branch:\s*(.+)/` with
a trimmed, nonempty capture different from `(unknown)`; `currentBranch =
some b` models a successful `git rev-parse --abbrev-ref HEAD` with
nonempty stdout. -/
structure DefaultBranchEnv where
  remoteHead : Option String
  mainExists : Bool
  masterExists : Bool
  currentBranch : Option String
deriving DecidableEq, Repr

/-- `getDefaultBranch`: remote-reported default, else local `main`, else
local `master`, else the current branch, else a `GitError`. -/
def getDefaultBranch (e : DefaultBranchEnv) : Except WtError String :=
  match e.remoteHead with
  | some branch => .ok branch
  | none =>
    if e.mainExists then .ok "main"
    else if e.masterExists then .ok "master"
    else
      match e.currentBranch with
      | some current => .ok current
      | none => .error (.git
          "Could not determine default branch. No remote configured, and neither main nor master branches exist locally."
          "git remote show origin")

/-- `create` line 82: `baseBranch || (await getDefaultBranch(gitRoot))`.
JavaScript `||` treats the empty string as absent. -/
def resolveBase (baseBranch : Option String) (e : DefaultBranchEnv) : Except WtError String :=
  match baseBranch with
  | some b => if b = "" then getDefaultBranch e else .ok b
  | none => getDefaultBranch e

/-! ## LifecycleController — `create` (`src/lib/worktree.ts` lines 60–96) -/

/-- The backend calls `create` can issue, in the order they appear. -/
inductive BackendCall where
  | getGitRoot
  | fsExists (path : String)
  | defaultBranchLookup
  | branchExists (branch : String)
  | createBranch (branch : String) (base : String)
  | addWorktree (path : String) (branch : String)
deriving DecidableEq, Repr

/-- Backend state consulted by `create`. -/
structure CreateEnv where
  gitRoot : String
  fsExists : String → Bool
  branchExists : String → Bool
  defaultEnv : DefaultBranchEnv

structure CreateResult where
  path : String
  branch : String
  created : Bool
deriving DecidableEq, Repr

/-- The branch-name validation error thrown by `create` and `checkout`. -/
def branchNameError (branch : String) : WtError :=
  .validation ("Invalid branch name: " ++ branch ++
    "\nBranch names must follow git reference naming rules")

/-- `create(branch, baseBranch?)`: validation, path computation and safety
check, existence check, base resolution, branch creation, worktree
addition.  The second component records every backend/filesystem call
issued before the function returned. -/
def create (env : CreateEnv) (branch : String) (baseBranch : Option String) :
    Except WtError CreateResult × List BackendCall :=
  if ¬ isValidBranchName branch then
    (.error (branchNameError branch), [])
  else
    let calls := [BackendCall.getGitRoot]
    let dirName := branchToDirName branch
    let projectRoot := dirnameP env.gitRoot
    let worktreeDir := joinPath projectRoot dirName
    if ¬ isSafePath worktreeDir then
      (.error (.validation "Invalid path detected - potential directory traversal"), calls)
    else
      let calls := calls ++ [BackendCall.fsExists worktreeDir]
      if env.fsExists worktreeDir then
        (.error (.fileSystem ("Worktree directory already exists: " ++ worktreeDir ++
          ". Run `worktree switch " ++ branch ++ "` or remove the existing worktree.")), calls)
      else
        let calls := calls ++
          (match baseBranch with
           | some b => if b = "" then [BackendCall.defaultBranchLookup] else []
           | none => [BackendCall.defaultBranchLookup])
        match resolveBase baseBranch env.defaultEnv with
        | .error e => (.error e, calls)
        | .ok base =>
          let calls := calls ++ [BackendCall.branchExists branch]
          let branchAlreadyExists := env.branchExists branch
          let calls := calls ++
            (if ¬ branchAlreadyExists then [BackendCall.createBranch branch base] else [])
          let calls := calls ++ [BackendCall.addWorktree worktreeDir branch]
          (.ok { path := worktreeDir, branch := branch, created := !branchAlreadyExists }, calls)

/-! ## SafetyGate and `remove` (`src/lib/worktree.ts` lines 298–330,
`src/utils/git.ts` lines 302–454) -/

/-- `WorkingDirectoryStatus` from `src/utils/git.ts`: the three file
categories parsed from `git status --porcelain`. -/
structure WorkingDirectoryStatus where
  staged : List String
  unstaged : List String
  untracked : List String
deriving DecidableEq, Repr

/-- The `hasChanges` field computed by `gitGetWorkingDirectoryStatus`. -/
def WorkingDirectoryStatus.hasChanges (st : WorkingDirectoryStatus) : Bool :=
  !st.staged.isEmpty || !st.unstaged.isEmpty || !st.untracked.isEmpty

/-- `gitHasUncommittedChanges(cwd, {includeUntracked})`. -/
def gitHasUncommittedChanges (st : WorkingDirectoryStatus) (includeUntracked : Bool) : Bool :=
  if includeUntracked then st.hasChanges
  else !st.staged.isEmpty || !st.unstaged.isEmpty

/-- Repository state consulted by `remove`.  `isMergedInto b t` is the
result of `gitIsBranchMerged(b, t)`: `.ok` when `git merge-base
--is-ancestor` exited 0 or 1, `.error` when the underlying call failed in
any other way (which `gitIsBranchMerged` converts to a thrown
`GitError`). -/
structure RemoveEnv where
  gitRoot : String
  fsExists : String → Bool
  statusOf : String → WorkingDirectoryStatus
  defaultEnv : DefaultBranchEnv
  isMergedInto : String → String → Except WtError Bool

/-- Outcome of `remove`: the returned path or the thrown error, plus
whether the backend primitive `gitRemoveWorktree` was invoked. -/
structure RemoveOutcome where
  result : Except WtError String
  removeCalled : Bool
deriving Repr

/-- `remove(identifier, force)` from `src/lib/worktree.ts`. -/
def remove (env : RemoveEnv) (identifier : String) (force : Bool) : RemoveOutcome :=
  let worktreeDir := worktreeDirFor env.gitRoot identifier
  if ¬ env.fsExists worktreeDir then
    { result := .error (.fileSystem ("No such worktree directory: " ++ worktreeDir ++
        ". Run `worktree list` to see active worktrees.")),
      removeCalled := false }
  else if ¬ force then
    if gitHasUncommittedChanges (env.statusOf worktreeDir) true then
      { result := .error (.uncommittedChanges identifier), removeCalled := false }
    else
      match getDefaultBranch env.defaultEnv with
      | .error e => { result := .error e, removeCalled := false }
      | .ok defaultBranch =>
        match env.isMergedInto identifier defaultBranch with
        | .error e => { result := .error e, removeCalled := false }
        | .ok merged =>
          if ¬ merged then
            { result := .error (.unmergedBranch identifier defaultBranch), removeCalled := false }
          else
            { result := .ok worktreeDir, removeCalled := true }
  else
    { result := .ok worktreeDir, removeCalled := true }

/-! ## HookRunner (`src/lib/hooks.ts`, `executeHooks` / `runHookCommand`)

`executeCommand` resolves with an exit code even when the shell reports a
non-zero exit (the thrown shell error carrying `exitCode` is converted
back into a result); any other spawn failure propagates as a thrown
error, which `runHookCommand` catches.  Execution is modelled by an
environment `exec` giving each command's outcome. -/

/-- Per-command outcome as logged by `runHookCommand`: spawn failure
(`Error:`), non-zero exit (`Failed:`), or success (`Done:`). -/
inductive HookOutcome where
  | spawnError
  | failedExit (code : Nat)
  | done
deriving DecidableEq, Repr

/-- `runHookCommand`: never throws; logs and returns in every case. -/
def runHookCommand (exec : String → Except String Nat) (command : String) : HookOutcome :=
  match exec command with
  | .error _ => .spawnError
  | .ok code => if code ≠ 0 then .failedExit code else .done

/-- The execution loop of `executeHooks` (lines 298–303): strictly
sequential, skipping falsy (empty) commands, never aborting on a
failure. -/
def runLoop (exec : String → Except String Nat) (commands : List String) :
    List (String × HookOutcome) :=
  (commands.filter (fun c => c ≠ "")).map (fun c => (c, runHookCommand exec c))

/-- Caller context of `executeHooks`. -/
structure HookOptions where
  skipHooks : Bool
  trustHooks : Bool
  interactive : Bool
  confirmRisky : Bool

/-- `executeHooks(config, hookType, options)`: `commands` models
`config?.[hookType]` (`none` when the config or the phase list is
absent).  Returns the sequence of commands actually executed, each with
its outcome. -/
def executeHooks (commands : Option (List String)) (opts : HookOptions)
    (exec : String → Except String Nat) : List (String × HookOutcome) :=
  if opts.skipHooks then []
  else
    match commands with
    | none => []
    | some cmds =>
      if cmds.isEmpty then []
      else if ¬ opts.trustHooks then
        let validationResults := cmds.map validateHookCommand
        let blockedCommands := validationResults.filter (fun r => r.level = .blocked)
        let riskyCommands := validationResults.filter (fun r => r.level = .risky)
        if !blockedCommands.isEmpty then []
        else if !riskyCommands.isEmpty && opts.interactive then
          if ¬ opts.confirmRisky then [] else runLoop exec cmds
        else if !riskyCommands.isEmpty && !opts.interactive then
          let safeCommands := cmds.filter (fun c => (validateHookCommand c).level = .safe)
          if safeCommands.isEmpty then [] else runLoop exec safeCommands
        else runLoop exec cmds
      else runLoop exec cmds

/-! ## AtomicMover — `setup` (`src/lib/worktree.ts` lines 332–439)

The filesystem is modelled by the top-level entries of the repository
root and the entries inside the temporary staging directory; `move` is a
rename between the two.  The cooperative interrupt flag is modelled by
the number of completed moves after which the signal handler has set it
(`interruptAfter = some k`: the check at the top of the loop starts
failing once `k` moves are done). -/

structure FsState where
  root : List String
  staging : List String
  stagingExists : Bool
deriving DecidableEq, Repr

/-- `move(item, tempDir + '/' + item)`. -/
def moveRootToStaging (s : FsState) (item : String) : FsState :=
  { s with root := s.root.erase item, staging := s.staging ++ [item] }

/-- `move(tempDir + '/' + item, item)` during rollback. -/
def moveStagingToRoot (s : FsState) (item : String) : FsState :=
  { s with staging := s.staging.erase item, root := s.root ++ [item] }

/-- The `MOVING` loop of `setup` (lines 394–402): checks the interrupt
flag, skips `tempDir`/`.`/`..`, moves each remaining entry into staging
and appends it to the rollback ledger.  Returns the state, the ledger,
and whether the loop aborted at an interrupt checkpoint. -/
def interruptHit (interruptAfter : Option Nat) (done : Nat) : Bool :=
  match interruptAfter with
  | some k => decide (k ≤ done)
  | none => false

def setupLoop (tempDir : String) (interruptAfter : Option Nat) :
    List String → Nat → List String → FsState → FsState × List String × Bool
  | [], _, ledger, s => (s, ledger, false)
  | item :: rest, done, ledger, s =>
    if interruptHit interruptAfter done then
      (s, ledger, true)
    else if item = tempDir || item = "." || item = ".." then
      setupLoop tempDir interruptAfter rest done ledger s
    else
      setupLoop tempDir interruptAfter rest (done + 1) (ledger ++ [item])
        (moveRootToStaging s item)

/-- `rollbackSetup(tempDir, itemsToRollback)`: move every ledger entry
back (collecting failures instead of throwing), then `rm -rf` the staging
directory; throws a `FileSystemError` summarising the collected errors if
any occurred.  `moveFails` says which individual restore moves fail and
`cleanupFails` whether the final `rm -rf` fails. -/
def rollbackSetup (moveFails : String → Bool) (cleanupFails : Bool)
    (tempDir : String) (itemsToRollback : List String) (s : FsState) :
    FsState × Option WtError :=
  let step := fun (acc : FsState × Nat) (item : String) =>
    if moveFails item then (acc.1, acc.2 + 1)
    else (moveStagingToRoot acc.1 item, acc.2)
  let moved := itemsToRollback.foldl step (s, 0)
  let afterCleanup :=
    if cleanupFails then (moved.1, moved.2 + 1)
    else (({ root := moved.1.root.erase tempDir, staging := [],
             stagingExists := false } : FsState), moved.2)
  if afterCleanup.2 ≠ 0 then
    (afterCleanup.1, some (.fileSystem
      ("Setup rollback completed with " ++ toString afterCleanup.2 ++ " error(s)")))
  else (afterCleanup.1, none)

/-- Environment of one `setup` run. -/
structure SetupEnv where
  isWorktree : Bool
  dotGitExists : Bool
  currentBranch : String
  hasUncommitted : Bool
  origItems : List String
  tempDir : String
  interruptAfter : Option Nat
  renameFails : Bool
  rollbackMoveFails : String → Bool
  rollbackCleanupFails : Bool

/-- Outcome of `setup`: final filesystem state, the returned value or the
propagated error, and the rollback failure logged as secondary context
(`log.error`), if any. -/
structure SetupOutcome where
  state : FsState
  result : Except WtError (String × String)
  rollbackLog : Option WtError

/-- The catch block of `setup` (lines 418–434): roll back first, log any
rollback error as secondary context, then rethrow the original error,
wrapping it in `FileSystemError('Setup failed: …')` unless it already is
a `ValidationError`, `FileSystemError` or `GitError`. -/
def setupHandleFailure (env : SetupEnv) (tempDir : String) (ledger : List String)
    (s : FsState) (origErr : WtError) : SetupOutcome :=
  let rb := rollbackSetup env.rollbackMoveFails env.rollbackCleanupFails tempDir ledger s
  let finalErr :=
    if isRethrownAsIs origErr then origErr
    else .fileSystem ("Setup failed: " ++ errMessage origErr)
  { state := rb.1, result := .error finalErr, rollbackLog := rb.2 }

/-- `setup(targetDir?)` from `src/lib/worktree.ts`: precondition checks,
staging-directory creation, the move loop, and the final rename of the
staging directory to the target worktree-directory name
(`targetDir || currentBranch`, with JavaScript `||`). -/
def setup (env : SetupEnv) (targetDir : Option String) : SetupOutcome :=
  let s0 : FsState := { root := env.origItems, staging := [], stagingExists := false }
  if env.isWorktree then
    { state := s0,
      result := .error (.validation
        "Already in a worktree directory. Worktree structure already set up - no setup needed."),
      rollbackLog := none }
  else if ¬ env.dotGitExists then
    { state := s0,
      result := .error (.validation
        "Not in a git repository root (no .git folder found). Run this command from the root of your cloned repository."),
      rollbackLog := none }
  else if env.hasUncommitted then
    { state := s0, result := .error (.uncommittedChanges env.currentBranch),
      rollbackLog := none }
  else
    let tempDir := env.tempDir
    let targetDirName :=
      match targetDir with
      | some t => if t = "" then env.currentBranch else t
      | none => env.currentBranch
    let s1 : FsState := { root := env.origItems ++ [tempDir], staging := [], stagingExists := true }
    let items := s1.root
    let loopOut := setupLoop tempDir env.interruptAfter items 0 [] s1
    let s2 := loopOut.1
    let ledger := loopOut.2.1
    let interrupted := loopOut.2.2
    if interrupted then
      setupHandleFailure env tempDir ledger s2 (.generic "Operation interrupted by user")
    else if s2.root.contains targetDirName then
      setupHandleFailure env tempDir ledger s2
        (.fileSystem ("Directory '" ++ targetDirName ++ "' already exists. Cannot proceed with setup."))
    else if env.renameFails then
      setupHandleFailure env tempDir ledger s2 (.generic "rename failed")
    else
      { state := { root := (s2.root.erase tempDir) ++ [targetDirName], staging := [],
                   stagingExists := false },
        result := .ok (".", targetDirName),
        rollbackLog := none }

/-! ## Spec-side definitions used for comparison -/

/-- The base-branch priority order as the spec words it (§4.1): explicit
argument, else configured default, else remote-reported default, else
local `main`, else local `master`, else current branch.  Written from the
spec's words, to be compared against `resolveBase` (the code). -/
def specResolveBase (explicitArg configuredDefault : Option String)
    (e : DefaultBranchEnv) : Except WtError String :=
  match explicitArg with
  | some b => .ok b
  | none =>
    match configuredDefault with
    | some c => .ok c
    | none => getDefaultBranch e

/-- A branch name violating the reference-naming rules as the spec lists
them: empty; leading `/`, `.` or `-`; trailing `/`, `.` or lock suffix;
control characters, whitespace or shell metacharacters; `..`, `@{`, or
doubled separators. -/
def specViolatesNaming (b : String) : Bool :=
  b = "" ||
  jsStartsWith b "/" || jsStartsWith b "." || jsStartsWith b "-" ||
  jsEndsWith b "/" || jsEndsWith b "." || jsEndsWith b ".lock" ||
  b.toList.any branchCtlWs || b.toList.any branchShellMeta ||
  strContains b ".." || strContains b "@\x7b" || strContains b "//"

/-! ## Concrete environments for closed instances -/

/-- An all-clean working-directory status. -/
def cleanStatus : WorkingDirectoryStatus := ⟨[], [], []⟩

/-- A status with exactly one modified tracked (unstaged) file. -/
def oneModifiedStatus : WorkingDirectoryStatus := ⟨[], ["file.txt"], []⟩

/-- A removal environment where the target worktree exists, with the
given status and merge answer. -/
def mkRemoveEnv (st : WorkingDirectoryStatus) (merged : Except WtError Bool) : RemoveEnv :=
  { gitRoot := "/home/user/project",
    fsExists := fun _ => true,
    statusOf := fun _ => st,
    defaultEnv := ⟨some "main", true, false, some "main"⟩,
    isMergedInto := fun _ _ => merged }

/-- A creation environment with no existing directories or branches and a
remote-reported default branch `main`. -/
def createEnvFresh : CreateEnv :=
  { gitRoot := "/home/user/project",
    fsExists := fun _ => false,
    branchExists := fun _ => false,
    defaultEnv := ⟨some "main", true, false, some "main"⟩ }

/-- Hook options: hooks enabled, trusted, non-interactive. -/
def hookOptsTrusted : HookOptions := ⟨false, true, false, false⟩

/-- A command execution environment where `exit 1` fails with exit code 1
and every other command succeeds. -/
def execSample : String → Except String Nat :=
  fun c => if c = "exit 1" then .ok 1 else .ok 0

/-- A setup environment with three top-level entries, interrupted after
two completed moves, with a fully succeeding rollback. -/
def setupEnvSample : SetupEnv :=
  { isWorktree := false, dotGitExists := true, currentBranch := "main",
    hasUncommitted := false, origItems := ["a", "b", "c"],
    tempDir := ".tmp-worktree-setup-123", interruptAfter := some 2,
    renameFails := false, rollbackMoveFails := fun _ => false,
    rollbackCleanupFails := false }

/-! # Supporting lemmas -/

theorem slashDash_idem (c : Char) : slashDash (slashDash c) = slashDash c := by
  unfold slashDash
  by_cases h : c = '/' <;> simp [h]

theorem map_slashDash_ne {l : List Char} (h : '/' ∈ l) : l.map slashDash ≠ l := by
  induction l with
  | nil => cases h
  | cons a t ih =>
    intro he
    rw [List.map_cons] at he
    rcases List.mem_cons.mp h with rfl | hm
    · simp [slashDash] at he
    · injection he with h1 h2
      exact ih hm h2

theorem branchToDirName_idem (b : String) :
    branchToDirName (branchToDirName b) = branchToDirName b := by
  unfold branchToDirName
  show String.mk ((b.toList.map slashDash).map slashDash) = String.mk (b.toList.map slashDash)
  rw [List.map_map]
  congr 1
  exact List.map_congr_left (fun a _ => slashDash_idem a)

theorem isPrefList_refl_append (t b : List Char) : isPrefList t (t ++ b) = true := by
  induction t with
  | nil => rfl
  | cons a t ih => simp [isPrefList, ih]

theorem hasSubList_append (a t b : List Char) : hasSubList t (a ++ (t ++ b)) = true := by
  induction a with
  | nil =>
    cases t with
    | nil => cases b <;> simp [hasSubList, isPrefList]
    | cons x xs =>
      show hasSubList (x :: xs) (x :: (xs ++ b)) = true
      simp only [hasSubList, Bool.or_eq_true]
      exact Or.inl (isPrefList_refl_append (x :: xs) b)
  | cons c a' ih =>
    show hasSubList t (c :: (a' ++ (t ++ b))) = true
    simp [hasSubList, ih]

theorem strContains_mid (pre mid post : String) : strContains (pre ++ mid ++ post) mid = true := by
  unfold strContains
  have hl : (pre ++ mid ++ post).toList = pre.toList ++ (mid.toList ++ post.toList) := by
    simp [String.toList, String.data_append]
  rw [hl]
  exact hasSubList_append _ _ _

/-! # Claim theorems -/

/-- C10: the branch-to-directory mapping is not injective: for every
branch name containing `/`, the branch obtained by replacing each `/`
with `-` is a different name mapping to the same directory name, so
`create` and `remove` (both of which compute `worktreeDirFor`) target the
same worktree path for either identifier. -/
theorem branch_to_dir_not_injective (b : String) (h : '/' ∈ b.toList) :
    branchToDirName b ≠ b ∧
    branchToDirName (branchToDirName b) = branchToDirName b ∧
    ∀ gitRoot, worktreeDirFor gitRoot (branchToDirName b) = worktreeDirFor gitRoot b := by
  refine ⟨?_, branchToDirName_idem b, ?_⟩
  · intro he
    apply map_slashDash_ne h
    have hd := congrArg String.data he
    simpa [branchToDirName, String.toList] using hd
  · intro gitRoot
    unfold worktreeDirFor
    rw [branchToDirName_idem]

/-- Witness for C10: `feature/login` and `feature-login` share the
worktree directory. -/
theorem branch_to_dir_not_injective_witness :
    branchToDirName "feature/login" ≠ "feature/login" ∧
    branchToDirName (branchToDirName "feature/login") = branchToDirName "feature/login" ∧
    worktreeDirFor "/home/user/project" (branchToDirName "feature/login") =
      worktreeDirFor "/home/user/project" "feature/login" :=
  have h := branch_to_dir_not_injective "feature/login" (by decide)
  ⟨h.1, h.2.1, h.2.2 "/home/user/project"⟩

/-- C6: when both safety conditions fail (uncommitted changes present and
branch not merged into the default branch), the uncommitted-changes check
is evaluated first and the caller sees `UncommittedChangesError`, not
`UnmergedBranchError`. -/
theorem remove_uncommitted_reported_first (env : RemoveEnv) (identifier d : String)
    (hex : env.fsExists (worktreeDirFor env.gitRoot identifier) = true)
    (hch : (env.statusOf (worktreeDirFor env.gitRoot identifier)).hasChanges = true)
    (hd : getDefaultBranch env.defaultEnv = .ok d)
    (hm : env.isMergedInto identifier d = .ok false) :
    remove env identifier false =
      { result := .error (.uncommittedChanges identifier), removeCalled := false } := by
  unfold remove gitHasUncommittedChanges
  simp [hex, hch]

/-- Witness for C6 at a concrete environment where both checks fail. -/
theorem remove_uncommitted_reported_first_witness :
    remove (mkRemoveEnv oneModifiedStatus (.ok false)) "feature/x" false =
      { result := .error (.uncommittedChanges "feature/x"), removeCalled := false } :=
  remove_uncommitted_reported_first (mkRemoveEnv oneModifiedStatus (.ok false))
    "feature/x" "main" rfl rfl rfl rfl

/-- C5 counterexample: with a configured default branch `develop` present
and the backend reporting remote default `main`, the spec's priority
order yields `develop` but the code's resolution (which never consults the
configuration) yields `main`. -/
theorem base_resolution_ignores_configured_default :
    specResolveBase none (some "develop") ⟨some "main", true, false, some "dev"⟩ = .ok "develop" ∧
    resolveBase none ⟨some "main", true, false, some "dev"⟩ = .ok "main" ∧
    resolveBase none ⟨some "main", true, false, some "dev"⟩ ≠
      specResolveBase none (some "develop") ⟨some "main", true, false, some "dev"⟩ := by
  refine ⟨rfl, rfl, ?_⟩
  intro h
  injection h with h2
  exact absurd h2 (by decide)

/-- C5 amended: `create` resolves the base branch in the priority order
explicit argument (when given and nonempty) → backend's remote-reported
default → local `main` → local `master` → current checked-out branch,
with no configured-default step, and fails exactly when none of these
resolves. -/
theorem resolveBase_priority (explicitArg : Option String) (e : DefaultBranchEnv)
    (hne : ∀ b, explicitArg = some b → b ≠ "") :
    resolveBase explicitArg e = specResolveBase explicitArg none e ∧
    ((∃ err, resolveBase explicitArg e = .error err) ↔
      (explicitArg = none ∧ e.remoteHead = none ∧ e.mainExists = false ∧
       e.masterExists = false ∧ e.currentBranch = none)) := by
  cases explicitArg with
  | some b =>
    have hb : b ≠ "" := hne b rfl
    constructor
    · simp [resolveBase, specResolveBase, hb]
    · simp [resolveBase, hb]
  | none =>
    constructor
    · rfl
    · cases hr : e.remoteHead <;> cases hm : e.mainExists <;> cases hms : e.masterExists <;>
        cases hc : e.currentBranch <;>
        simp [resolveBase, getDefaultBranch, hr, hm, hms, hc]

/-- Witness for C5 amended, with an explicit nonempty base argument. -/
theorem resolveBase_priority_witness :
    resolveBase (some "dev") ⟨none, false, true, none⟩ =
      specResolveBase (some "dev") none ⟨none, false, true, none⟩ ∧
    ((∃ err, resolveBase (some "dev") ⟨none, false, true, none⟩ = .error err) ↔
      ((some "dev" : Option String) = none ∧ (none : Option String) = none ∧
       false = false ∧ true = false ∧ (none : Option String) = none)) :=
  resolveBase_priority (some "dev") ⟨none, false, true, none⟩
    (by intro b hb; injection hb with hb; subst hb; decide)

/-- C7: a non-zero exit or spawn failure of one command does not stop the
remaining commands of a hook phase: every (non-falsy) command of the list
executes, and each command's outcome depends only on its own execution. -/
theorem hook_failures_do_not_stop_phase (cmds : List String) (opts : HookOptions)
    (exec : String → Except String Nat)
    (hskip : opts.skipHooks = false) (htrust : opts.trustHooks = true) :
    executeHooks (some cmds) opts exec =
      (cmds.filter (fun c => c ≠ "")).map (fun c => (c, runHookCommand exec c)) := by
  unfold executeHooks
  cases cmds <;> simp [hskip, htrust, runLoop]

/-- Witness for C7: the second command succeeds although the first fails
with exit code 1. -/
theorem hook_failures_do_not_stop_phase_witness :
    executeHooks (some ["exit 1", "echo ok"]) hookOptsTrusted execSample =
      [("exit 1", .failedExit 1), ("echo ok", .done)] :=
  (hook_failures_do_not_stop_phase ["exit 1", "echo ok"] hookOptsTrusted execSample
    rfl rfl).trans (by rfl)

/-- C9 counterexample: removing a worktree with exactly one modified
tracked file `file.txt` does raise `UncommittedChangesError`, but the
error's payload (its message and its stored git command) does not name
that file — the constructor only receives the identifier. -/
theorem remove_error_payload_omits_filename :
    (remove (mkRemoveEnv oneModifiedStatus (.ok true)) "feature/login" false).result =
      .error (.uncommittedChanges "feature/login") ∧
    strContains (errMessage (.uncommittedChanges "feature/login")) "file.txt" = false ∧
    strContains (errCommand (.uncommittedChanges "feature/login")) "file.txt" = false :=
  ⟨rfl, by decide, by decide⟩

/-- C9 amended: `remove` with `force = false` on a worktree with
uncommitted changes raises `UncommittedChangesError` whose payload names
the worktree identifier (the message embeds it); the payload does not
include per-file summaries. -/
theorem remove_uncommitted_error_names_identifier (env : RemoveEnv) (identifier : String)
    (hex : env.fsExists (worktreeDirFor env.gitRoot identifier) = true)
    (hch : (env.statusOf (worktreeDirFor env.gitRoot identifier)).hasChanges = true) :
    (remove env identifier false).result = .error (.uncommittedChanges identifier) ∧
    strContains (errMessage (.uncommittedChanges identifier)) identifier = true := by
  constructor
  · unfold remove gitHasUncommittedChanges
    simp [hex, hch]
  · exact strContains_mid "Worktree '" identifier
      "' has uncommitted changes. Commit or stash changes, or use --force to override."

/-- Witness for C9 amended at a concrete one-modified-file environment. -/
theorem remove_uncommitted_error_names_identifier_witness :
    (remove (mkRemoveEnv oneModifiedStatus (.ok true)) "feature/login" false).result =
      .error (.uncommittedChanges "feature/login") ∧
    strContains (errMessage (.uncommittedChanges "feature/login")) "feature/login" = true :=
  remove_uncommitted_error_names_identifier (mkRemoveEnv oneModifiedStatus (.ok true))
    "feature/login" rfl rfl

/-- A violation of any of the naming rules the spec lists makes
`isValidBranchName` return `false`. -/
theorem isValid_false_of (b : String)
    (h : b = "" ∨
         jsStartsWith b "/" = true ∨ jsStartsWith b "." = true ∨ jsStartsWith b "-" = true ∨
         jsEndsWith b "/" = true ∨ jsEndsWith b "." = true ∨ jsEndsWith b ".lock" = true ∨
         b.toList.any branchCtlWs = true ∨ b.toList.any branchShellMeta = true ∨
         strContains b ".." = true ∨ strContains b "@\x7b" = true ∨ strContains b "//" = true) :
    isValidBranchName b = false := by
  unfold isValidBranchName
  rcases h with h|h|h|h|h|h|h|h|h|h|h|h <;>
    simp only [h, branchGitForbidden, Bool.or_true, Bool.true_or, eq_self_iff_true,
      if_true, ite_self]

/-- C4: for every branch name violating the reference-naming rules
(empty; leading `/`, `.` or `-`; trailing `/`, `.` or lock suffix;
control characters, whitespace or shell metacharacters; `..`, `@{` or
doubled separators), `create` fails with `ValidationError` and issues no
backend call. -/
theorem create_rejects_invalid_names (env : CreateEnv) (b : String) (base : Option String)
    (h : specViolatesNaming b = true) :
    create env b base = (.error (branchNameError b), []) := by
  have hv : isValidBranchName b = false := by
    apply isValid_false_of
    unfold specViolatesNaming at h
    simp only [Bool.or_eq_true, decide_eq_true_eq] at h
    tauto
  unfold create
  simp [hv]

/-- Witness for C4 at the leading-dash branch name `-bad`. -/
theorem create_rejects_invalid_names_witness :
    specViolatesNaming "-bad" = true ∧
    create createEnvFresh "-bad" none = (.error (branchNameError "-bad"), []) :=
  ⟨by decide, create_rejects_invalid_names createEnvFresh "-bad" none (by decide)⟩

/-- C1: with `force = false`, the backend's worktree-remove primitive is
invoked exactly when the target's working-directory status (staged,
unstaged and untracked) is empty and the branch is an ancestor of the
default branch; otherwise a safety error — `UncommittedChangesError` or
`UnmergedBranchError` — is raised. -/
theorem remove_requires_both_checks (env : RemoveEnv) (identifier d : String) (m : Bool)
    (hex : env.fsExists (worktreeDirFor env.gitRoot identifier) = true)
    (hd : getDefaultBranch env.defaultEnv = .ok d)
    (hm : env.isMergedInto identifier d = .ok m) :
    ((remove env identifier false).removeCalled = true ↔
      ((env.statusOf (worktreeDirFor env.gitRoot identifier)).hasChanges = false ∧ m = true)) ∧
    (¬((env.statusOf (worktreeDirFor env.gitRoot identifier)).hasChanges = false ∧ m = true) →
      (remove env identifier false).result = .error (.uncommittedChanges identifier) ∨
      (remove env identifier false).result = .error (.unmergedBranch identifier d)) := by
  unfold remove gitHasUncommittedChanges
  cases hch : (env.statusOf (worktreeDirFor env.gitRoot identifier)).hasChanges <;>
    cases m <;> simp [hex, hd, hm, hch]

/-- Witness for C1: clean status and merged branch, the remove primitive
is invoked. -/
theorem remove_requires_both_checks_witness :
    ((remove (mkRemoveEnv cleanStatus (.ok true)) "feature/x" false).removeCalled = true ↔
      ((cleanStatus.hasChanges = false) ∧ true = true)) ∧
    (¬(cleanStatus.hasChanges = false ∧ true = true) →
      (remove (mkRemoveEnv cleanStatus (.ok true)) "feature/x" false).result =
        .error (.uncommittedChanges "feature/x") ∨
      (remove (mkRemoveEnv cleanStatus (.ok true)) "feature/x" false).result =
        .error (.unmergedBranch "feature/x" "main")) :=
  remove_requires_both_checks (mkRemoveEnv cleanStatus (.ok true)) "feature/x" "main" true
    rfl rfl rfl

theorem str_append_empty (s : String) : s ++ "" = s := by
  cases s with
  | mk l => exact congrArg String.mk (List.append_nil l)

theorem joinPath_ends_in (a b' : String) : ∃ pre, joinPath a b' = pre ++ b' := by
  unfold joinPath
  by_cases ha : a = ""
  · refine ⟨"", ?_⟩
    simp only [ha, if_true, eq_self_iff_true]
    rfl
  · by_cases hb : b' = ""
    · refine ⟨a, ?_⟩
      simp only [ha, hb, if_false, if_true, eq_self_iff_true, if_neg ha]
      exact (str_append_empty a).symm
    · exact ⟨a ++ "/", by simp [ha, hb]⟩

/-- C8: for every successful `create(branch)`, the result's `created`
field is true exactly when the branch did not already exist before the
call, the result's branch is the requested branch, and the result's path
ends in the branch name with every path separator replaced by a dash. -/
theorem create_created_reflects_branch (env : CreateEnv) (b : String) (base : Option String)
    (r : CreateResult) (calls : List BackendCall)
    (h : create env b base = (.ok r, calls)) :
    r.branch = b ∧ r.created = !env.branchExists b ∧
    ∃ pre, r.path = pre ++ branchToDirName b := by
  unfold create at h
  by_cases h1 : isValidBranchName b = true
  case neg => simp [h1] at h
  case pos =>
    by_cases h2 : isSafePath (joinPath (dirnameP env.gitRoot) (branchToDirName b)) = true
    case neg => simp [h1, h2] at h
    case pos =>
      by_cases h3 : env.fsExists (joinPath (dirnameP env.gitRoot) (branchToDirName b)) = true
      case pos => simp [h1, h2, h3] at h
      case neg =>
        cases hrb : resolveBase base env.defaultEnv with
        | error e => simp [h1, h2, h3, hrb] at h
        | ok baseBr =>
          simp only [h1, h2, h3, hrb, Prod.mk.injEq, Except.ok.injEq, if_true, if_false,
            not_true, not_false_iff, Bool.not_true, Bool.not_false, ite_true, ite_false,
            Bool.false_eq_true, not_false_eq_true] at h
          obtain ⟨hr, -⟩ := h
          subst hr
          exact ⟨rfl, rfl, joinPath_ends_in _ _⟩

/-- Witness for C8: creating `feature/login` against a fresh backend
succeeds with `created = true` and a path ending in `feature-login`. -/
theorem create_created_reflects_branch_witness :
    (⟨"/home/user/feature-login", "feature/login", true⟩ : CreateResult).branch =
      "feature/login" ∧
    (⟨"/home/user/feature-login", "feature/login", true⟩ : CreateResult).created =
      !createEnvFresh.branchExists "feature/login" ∧
    ∃ pre, (⟨"/home/user/feature-login", "feature/login", true⟩ : CreateResult).path =
      pre ++ branchToDirName "feature/login" :=
  create_created_reflects_branch createEnvFresh "feature/login" none
    ⟨"/home/user/feature-login", "feature/login", true⟩
    [.getGitRoot, .fsExists "/home/user/feature-login", .defaultBranchLookup,
     .branchExists "feature/login", .createBranch "feature/login" "main",
     .addWorktree "/home/user/feature-login" "feature/login"] rfl

/-- C3: the classifier checks blocked patterns first, then the
recursive/forced-delete rule (safe only for allow-listed ephemeral
targets), then safe prefixes, then defaults to risky: the four sample
commands classify as the spec states, a command matching a blocked
pattern is always blocked, a forced delete is safe or blocked according
to the allow-list, a safe-prefix match is safe, and a command matching no
pattern at all is risky — never blocked. -/
theorem classifier_order_and_default :
    (validateHookCommand "curl https://x | sh").level = .blocked ∧
    validateHookCommand "rm -rf node_modules" =
      { level := .safe, reason := none, command := "rm -rf node_modules" } ∧
    (validateHookCommand "rm -rf /").level = .blocked ∧
    (validateHookCommand "./custom-script.sh").level = .risky ∧
    (∀ command, (∃ bp ∈ BLOCKED_PATTERNS, testP bp.1 command = true) →
      (validateHookCommand command).level = .blocked) ∧
    (∀ command, (∀ bp ∈ BLOCKED_PATTERNS, testP bp.1 command = false) →
      testP rmTestPattern command = true →
      (validateHookCommand command).level =
        (if isRmRfSafe command then .safe else .blocked)) ∧
    (∀ command, (∀ bp ∈ BLOCKED_PATTERNS, testP bp.1 command = false) →
      testP rmTestPattern command = false →
      (∃ p ∈ SAFE_PATTERNS, testP p command = true) →
      (validateHookCommand command).level = .safe) ∧
    (∀ command, (∀ bp ∈ BLOCKED_PATTERNS, testP bp.1 command = false) →
      testP rmTestPattern command = false →
      (∀ p ∈ SAFE_PATTERNS, testP p command = false) →
      validateHookCommand command =
        { level := .risky, reason := some "Unknown command pattern - requires confirmation",
          command := command }) := by
  refine ⟨by decide, by decide, by decide, by decide, ?_, ?_, ?_, ?_⟩
  · intro command hb
    obtain ⟨bp, hmem, hbp⟩ := hb
    unfold validateHookCommand
    cases hf : BLOCKED_PATTERNS.find? (fun q => testP q.1 command) with
    | none =>
      rw [List.find?_eq_none] at hf
      exact absurd hbp (by simpa using hf bp hmem)
    | some q => rfl
  · intro command hb hrm
    unfold validateHookCommand
    rw [(List.find?_eq_none).mpr (by intro q hq; simp [hb q hq]), hrm]
    by_cases hs : isRmRfSafe command = true <;> simp [hs]
  · intro command hb hrm hsafe
    unfold validateHookCommand
    rw [(List.find?_eq_none).mpr (by intro q hq; simp [hb q hq]), hrm]
    have hany : SAFE_PATTERNS.any (fun p => testP p command) = true := by
      rw [List.any_eq_true]
      obtain ⟨p, hp, ht⟩ := hsafe
      exact ⟨p, hp, ht⟩
    simp [hany]
  · intro command hb hrm hsafe
    unfold validateHookCommand
    rw [(List.find?_eq_none).mpr (by intro q hq; simp [hb q hq]), hrm]
    have hany : SAFE_PATTERNS.any (fun p => testP p command) = false := by
      rw [Bool.eq_false_iff]
      intro hc
      rw [List.any_eq_true] at hc
      obtain ⟨p, hp, ht⟩ := hc
      exact absurd ht (by simp [hsafe p hp])
    simp [hany]

/-- Witness for C3: `./custom-script.sh` matches no pattern and is
classified risky by the default rule. -/
theorem classifier_order_and_default_witness :
    validateHookCommand "./custom-script.sh" =
      { level := .risky, reason := some "Unknown command pattern - requires confirmation",
        command := "./custom-script.sh" } :=
  classifier_order_and_default.2.2.2.2.2.2.2 "./custom-script.sh"
    (by decide) (by decide) (by decide)

/-! Lemmas about the `setup` move loop and rollback. -/

theorem setupLoop_interrupt (tempDir : String) (orig : List String) :
    ∀ (k d : Nat) (ledger : List String) (s : FsState),
      (∀ x ∈ orig, x ≠ tempDir ∧ x ≠ "." ∧ x ≠ "..") →
      k < orig.length →
      setupLoop tempDir (some (d + k)) (orig ++ [tempDir]) d ledger s =
        ((orig.take k).foldl moveRootToStaging s, ledger ++ orig.take k, true) := by
  induction orig with
  | nil =>
    intro k d ledger s _ hk
    exact absurd hk (by simp)
  | cons x rest ih =>
    intro k d ledger s hno hk
    show setupLoop tempDir (some (d + k)) (x :: (rest ++ [tempDir])) d ledger s = _
    cases k with
    | zero =>
      have hhit : interruptHit (some d) d = true := by simp [interruptHit]
      simp [setupLoop, Nat.add_zero, hhit]
    | succ k' =>
      have hx := hno x (by simp)
      have hhit : interruptHit (some (d + (k' + 1))) d = false := by
        simp [interruptHit]
      have hskip : (x = tempDir || x = "." || x = "..") = false := by
        simp [hx.1, hx.2.1, hx.2.2]
      have hrec := ih k' (d + 1) (ledger ++ [x]) (moveRootToStaging s x)
        (fun y hy => hno y (by simp [hy])) (by simpa using hk)
      simp only [setupLoop, hhit, hskip, Bool.false_eq_true, if_false]
      rw [show d + (k' + 1) = d + 1 + k' from by omega, hrec]
      simp [List.take_succ_cons, List.foldl_cons]

theorem moveMany_fields (l : List String) : ∀ s : FsState,
    (l.foldl moveRootToStaging s).root = l.foldl (fun r x => r.erase x) s.root ∧
    (l.foldl moveRootToStaging s).staging = s.staging ++ l ∧
    (l.foldl moveRootToStaging s).stagingExists = s.stagingExists := by
  induction l with
  | nil => intro s; exact ⟨rfl, (List.append_nil _).symm, rfl⟩
  | cons x t ih =>
    intro s
    have h := ih (moveRootToStaging s x)
    simp only [List.foldl_cons]
    refine ⟨h.1, ?_, h.2.2⟩
    rw [h.2.1]
    show (s.staging ++ [x]) ++ t = s.staging ++ (x :: t)
    simp

theorem foldl_erase_self (l rest : List String) :
    l.foldl (fun r x => r.erase x) (l ++ rest) = rest := by
  induction l with
  | nil => rfl
  | cons a t ih =>
    show t.foldl _ ((a :: (t ++ rest)).erase a) = rest
    rw [List.erase_cons_head]
    exact ih

theorem moveBackMany_fields (l : List String) : ∀ s : FsState,
    (l.foldl moveStagingToRoot s).root = s.root ++ l ∧
    (l.foldl moveStagingToRoot s).stagingExists = s.stagingExists := by
  induction l with
  | nil => intro s; exact ⟨(List.append_nil _).symm, rfl⟩
  | cons x t ih =>
    intro s
    have h := ih (moveStagingToRoot s x)
    simp only [List.foldl_cons]
    refine ⟨?_, h.2⟩
    rw [h.1]
    show (s.root ++ [x]) ++ t = s.root ++ (x :: t)
    simp

theorem rollFold_full (moveFails : String → Bool) (l : List String) :
    ∀ (s : FsState) (n : Nat),
      l.foldl (fun (acc : FsState × Nat) (item : String) =>
          if moveFails item then (acc.1, acc.2 + 1)
          else (moveStagingToRoot acc.1 item, acc.2)) (s, n) =
        ((l.filter (fun x => !moveFails x)).foldl moveStagingToRoot s,
         n + l.countP (fun x => moveFails x)) := by
  induction l with
  | nil => intro s n; simp
  | cons x t ih =>
    intro s n
    by_cases hx : moveFails x = true
    · simp [List.foldl_cons, List.filter_cons, List.countP_cons, hx, ih s (n + 1)]
      try omega
    · have hx' : moveFails x = false := by simpa using hx
      simp [List.foldl_cons, List.filter_cons, List.countP_cons, hx',
        ih (moveStagingToRoot s x) n]
      try omega

theorem rollbackSetup_clean (tempDir : String) (ledger : List String) (s : FsState) :
    rollbackSetup (fun _ => false) false tempDir ledger s =
      ({ root := (s.root ++ ledger).erase tempDir, staging := [],
         stagingExists := false }, none) := by
  unfold rollbackSetup
  simp only [rollFold_full]
  simp only [Bool.not_false, List.filter_true, List.countP_false, Nat.add_zero,
    Nat.zero_add, if_false, Bool.false_eq_true, ne_eq, not_true, not_false_iff]
  rw [(moveBackMany_fields ledger s).1]
  simp

/-- C2: when `setup` is interrupted after moving `k` of the top-level
entries into the staging directory, the propagated error is the original
interrupt cause (never a rollback error, which only appears in the
secondary log), and — when the rollback's own moves and cleanup succeed —
every moved entry is restored (the final root is a permutation of the
original entries) and no staging directory remains. -/
theorem setup_interrupt_rollback (env : SetupEnv) (tgt : Option String) (k : Nat)
    (h1 : env.isWorktree = false) (h2 : env.dotGitExists = true)
    (h3 : env.hasUncommitted = false) (h4 : env.interruptAfter = some k)
    (h5 : k < env.origItems.length)
    (h6 : ∀ x ∈ env.origItems, x ≠ env.tempDir ∧ x ≠ "." ∧ x ≠ "..") :
    (setup env tgt).result =
      .error (.fileSystem "Setup failed: Operation interrupted by user") ∧
    ((env.origItems.take k).countP (fun x => env.rollbackMoveFails x) ≠ 0 ∨
        env.rollbackCleanupFails = true →
      (setup env tgt).rollbackLog.isSome = true) ∧
    (env.rollbackMoveFails = (fun _ => false) → env.rollbackCleanupFails = false →
      (setup env tgt).state.root.Perm env.origItems ∧
      (setup env tgt).state.staging = [] ∧
      (setup env tgt).state.stagingExists = false) := by
  have hloop := setupLoop_interrupt env.tempDir env.origItems k 0 []
    ⟨env.origItems ++ [env.tempDir], [], true⟩ h6 h5
  simp only [Nat.zero_add, List.nil_append] at hloop
  have hsetup : setup env tgt =
      setupHandleFailure env env.tempDir (env.origItems.take k)
        ((env.origItems.take k).foldl moveRootToStaging
          ⟨env.origItems ++ [env.tempDir], [], true⟩)
        (.generic "Operation interrupted by user") := by
    unfold setup
    rw [if_neg (by simp [h1]), if_neg (by simp [h2]), if_neg (by simp [h3])]
    simp only [h4]
    rw [hloop]
    exact rfl
  refine ⟨?_, ?_, ?_⟩
  · rw [hsetup]
    rfl
  · intro hor
    rw [hsetup]
    unfold setupHandleFailure rollbackSetup
    simp only [rollFold_full]
    cases hcf : env.rollbackCleanupFails with
    | true =>
      simp only [hcf, if_true]
      simp
    | false =>
      have hcp : (env.origItems.take k).countP (fun x => env.rollbackMoveFails x) ≠ 0 := by
        rcases hor with h | h
        · exact h
        · exact absurd h (by simp [hcf])
      simp [hcf, hcp]
  · intro hmf hcf
    rw [hsetup]
    unfold setupHandleFailure
    rw [hmf, hcf, rollbackSetup_clean]
    have hroot2 : ((env.origItems.take k).foldl moveRootToStaging
        ⟨env.origItems ++ [env.tempDir], [], true⟩).root =
        env.origItems.drop k ++ [env.tempDir] := by
      have hm := (moveMany_fields (env.origItems.take k)
        ⟨env.origItems ++ [env.tempDir], [], true⟩).1
      rw [hm]
      show (env.origItems.take k).foldl (fun r x => r.erase x)
        (env.origItems ++ [env.tempDir]) = _
      rw [show env.origItems ++ [env.tempDir] =
        env.origItems.take k ++ (env.origItems.drop k ++ [env.tempDir]) from by
          rw [← List.append_assoc, List.take_append_drop]]
      exact foldl_erase_self _ _
    have htd : env.tempDir ∉ env.origItems.drop k := by
      intro hmem
      exact absurd rfl (h6 env.tempDir (List.mem_of_mem_drop hmem)).1
    refine ⟨?_, rfl, rfl⟩
    show ((((env.origItems.take k).foldl moveRootToStaging
        ⟨env.origItems ++ [env.tempDir], [], true⟩).root ++
        env.origItems.take k).erase env.tempDir).Perm env.origItems
    rw [hroot2, List.append_assoc, List.singleton_append,
      List.erase_append_right _ htd, List.erase_cons_head]
    exact List.perm_append_comm.trans (by rw [List.take_append_drop])

/-- Witness for C2: three entries, interrupted after two moves; the
original interrupt error propagates and the clean rollback restores the
root and removes the staging directory. -/
theorem setup_interrupt_rollback_witness :
    (setup setupEnvSample none).result =
      .error (.fileSystem "Setup failed: Operation interrupted by user") ∧
    ((setupEnvSample.origItems.take 2).countP
        (fun x => setupEnvSample.rollbackMoveFails x) ≠ 0 ∨
        setupEnvSample.rollbackCleanupFails = true →
      (setup setupEnvSample none).rollbackLog.isSome = true) ∧
    (setupEnvSample.rollbackMoveFails = (fun _ => false) →
      setupEnvSample.rollbackCleanupFails = false →
      (setup setupEnvSample none).state.root.Perm setupEnvSample.origItems ∧
      (setup setupEnvSample none).state.staging = [] ∧
      (setup setupEnvSample none).state.stagingExists = false) :=
  setup_interrupt_rollback setupEnvSample none 2 rfl rfl rfl rfl
    (by decide) (by decide)

end Worktree
